import Mathlib

/-!
Verification development for the recording control plane of go2file
(src/internal/ffmpeg and src/unnamed): lifecycle manager, segmentation
controller, retention/cleanup engine, auto-record reconciliation loop, and
cron-style scheduler, shallowly embedded in Lean.
-/

namespace Go2File

/-! ## Recording lifecycle manager (src/internal/ffmpeg/recorder.go) -/

/-- Result of the external `publisher.Stop()` call inside `Recording.Stop`:
`none` models a successful stop, `some e` models it returning error `e`. -/
abbrev PubStopResult := Option String

/-- One recording job (`Recording` in recorder.go): the fields its lifecycle
logic reads or writes. `hasPublisher` models `publisher != nil`. -/
structure Recording where
  id : String
  stream : String
  active : Bool
  hasPublisher : Bool
deriving Repr, DecidableEq

/-- `Recording.Stop` (recorder.go:272-315). Not active: a no-op returning nil.
Active with a publisher: the publisher is stopped and cleared; if that errors
the wrapped error is returned with `Active` left `true`, otherwise `Active`
becomes `false`. Active without a publisher: `Active` simply becomes `false`.
Returns the updated job and the returned error (`none` = nil). -/
def Recording.stop (r : Recording) (pubErr : PubStopResult) :
    Recording × Option String :=
  if !r.active then (r, none)
  else if r.hasPublisher then
    match pubErr with
    | some e => ({ r with hasPublisher := false },
                 some ("failed to stop recording: " ++ e))
    | none => ({ r with hasPublisher := false, active := false }, none)
  else ({ r with active := false }, none)

/-- The manager's registry `map[string]*Recording`, keyed by recording id
(keys unique, as in a Go map). -/
abbrev Registry := List (String × Recording)

/-- `RecordingManager.StartRecording` (recorder.go:356-382): a duplicate id is
refused with an error and the registry unchanged; otherwise a fresh job is
created and `recording.Start()` runs (its success is the `startOk` parameter;
on success the job is `Active` with a live publisher and is registered). -/
def startRecording (regs : Registry) (id streamName : String) (startOk : Bool) :
    Registry × Option String :=
  if (regs.lookup id).isSome then
    (regs, some ("recording with ID " ++ id ++ " already exists"))
  else if startOk then
    (regs ++ [(id, { id := id, stream := streamName,
                     active := true, hasPublisher := true })], none)
  else (regs, some "failed to start recording")

/-- `RecordingManager.StopRecording` (recorder.go:384-396): an unknown id
returns a not-found error; otherwise the job is stopped and its entry deleted
from the registry regardless of whether the stop itself errored, and the
stop's error is returned. -/
def stopRecording (regs : Registry) (id : String) (pubErr : PubStopResult) :
    Registry × Option String :=
  match regs.lookup id with
  | none => (regs, some ("recording with ID " ++ id ++ " not found"))
  | some r =>
    let res := r.stop pubErr
    (regs.filter (fun p => p.1 != id), res.2)

/-! ## Segmented recordings (src/internal/ffmpeg/recording_segments.go) -/

/-- Events emitted by one `startNextSegment` call, in order: the lifecycle
`Stop` of the previous segment (if one is running) and the `Start` of the new
segment carrying the index used in its id (`"<id>_seg<n>"`) and filename. -/
inductive SegEvent
  | stopRec
  | startRec (idx : Nat)
deriving Repr, DecidableEq

/-- State of a `SegmentedRecording` (recording_segments.go): the segment
counter, the controller's `Active` flag, and the current `Recording`
(`none` = nil pointer, `some b` = a recording whose `Active` flag is `b`). -/
structure SegRecState where
  currentSegment : Nat
  active : Bool
  currentRec : Option Bool
deriving Repr, DecidableEq

/-- `NewSegmentedRecording` (recording_segments.go:28-37): counter 0,
inactive, no current recording. -/
def newSegmented : SegRecState := ⟨0, false, none⟩

/-- `SegmentedRecording.startNextSegment` (recording_segments.go:88-146),
success path of the new segment's `Start`: the counter is incremented at the
top (recording_segments.go:91), the previous segment is stopped if it is
running, a new recording named with the incremented counter value is started,
and the counter is incremented a second time (recording_segments.go:137).
Returns the new state, the index used for the new segment, and the emitted
events in order. -/
def startNextSegment (st : SegRecState) : SegRecState × Nat × List SegEvent :=
  let c1 := st.currentSegment + 1
  let stops : List SegEvent :=
    match st.currentRec with
    | some true => [SegEvent.stopRec]
    | _ => []
  ({ st with currentSegment := c1 + 1, currentRec := some true }, c1,
   stops ++ [SegEvent.startRec c1])

/-! ## Auto-record target set and reconciliation decision
(src/unnamed/part_003 and the configuration part of recording_scheduler.go) -/

/-- The per-stream override fields of `StreamRecordingConfig` that the
target-set and source-resolution logic reads: the tri-state `Enabled *bool`
and the direct-source URL (empty string = unset, as in Go). -/
structure StreamCfg where
  enabled : Option Bool
  source : String
deriving Repr, DecidableEq

/-- `getStreamsToRecord` (part_003:42-81). Mode 1: global auto-start with no
per-stream configuration records every currently known stream. Mode 2:
otherwise, exactly the configured streams whose `Enabled` is explicitly true
or absent (absent defaults to enabled). `streamsCfg` is `cfg.Streams`
(association list with unique keys, iteration order fixed by the list), and
`allStreamNames` is `streams.GetAllNames()`. -/
def getStreamsToRecord (autoStart : Bool) (streamsCfg : List (String × StreamCfg))
    (allStreamNames : List String) : List String :=
  if autoStart && streamsCfg.isEmpty then allStreamNames
  else
    (streamsCfg.filter (fun p =>
      match p.2.enabled with
      | some b => b
      | none => true)).map (·.1)

/-- `IsStreamRecordingEnabled` (recording_scheduler.go:701-740): an explicitly
configured stream uses its `Enabled` flag, defaulting to true when the flag is
absent; an unconfigured stream records only when global auto-start is on and
no stream has specific configuration. -/
def isStreamRecordingEnabled (autoStart : Bool)
    (streamsCfg : List (String × StreamCfg)) (streamName : String) : Bool :=
  match streamsCfg.lookup streamName with
  | some c =>
    match c.enabled with
    | some b => b
    | none => true
  | none => autoStart && streamsCfg.isEmpty

/-- `strings.ReplaceAll` on character lists, fuel-indexed: every step consumes
at least one character and one unit of fuel, so fuel `l.length` is always
sufficient. -/
def replaceAllCharsAux (pat rep : List Char) : Nat → List Char → List Char
  | 0, l => l
  | _ + 1, [] => []
  | fuel + 1, c :: rest =>
    if pat.isPrefixOf (c :: rest) ∧ pat ≠ [] then
      rep ++ replaceAllCharsAux pat rep fuel (rest.drop (pat.length - 1))
    else c :: replaceAllCharsAux pat rep fuel rest

/-- `strings.ReplaceAll` on character lists (used by `ResolveDirectSource` to
substitute `{stream}` in the global direct-source template). For the empty
pattern the model returns the text unchanged (the code only ever substitutes
the fixed non-empty pattern). -/
def replaceAllChars (pat rep l : List Char) : List Char :=
  replaceAllCharsAux pat rep l.length l

/-- `ResolveDirectSource` (recording_scheduler.go:879-908): a non-empty
per-stream source wins; else a non-empty global template with `{stream}`
replaced; else empty (internal routing). -/
def resolveDirectSource (streamsCfg : List (String × StreamCfg))
    (globalDirect : String) (streamName : String) : String :=
  let fromGlobal : String :=
    if globalDirect ≠ "" then
      ⟨replaceAllChars "{stream}".data streamName.data globalDirect.data⟩
    else ""
  match streamsCfg.lookup streamName with
  | some c => if c.source ≠ "" then c.source else fromGlobal
  | none => fromGlobal

/-- The effective `Source` of `GetStreamRecordingConfig`
(recording_scheduler.go:743-851): the stream-specific source if set, else
`ResolveDirectSource`. -/
def effectiveSource (streamsCfg : List (String × StreamCfg))
    (globalDirect : String) (streamName : String) : String :=
  let fromStream : String :=
    match streamsCfg.lookup streamName with
    | some c => c.source
    | none => ""
  if fromStream ≠ "" then fromStream
  else resolveDirectSource streamsCfg globalDirect streamName

/-- An entry of the segmented-recording registry
(`SegmentedRecordingManager.recordings`): the fields `isAlreadyRecording`
reads. -/
structure SegEntry where
  stream : String
  active : Bool
deriving Repr, DecidableEq

/-- The in-memory state the reconciliation loop consults: the regular
recording registry and the segmented recording registry. -/
structure CoreState where
  regs : Registry
  segs : List (String × SegEntry)
deriving Repr, DecidableEq

/-- `isAlreadyRecording` (part_003:233-261): some entry of either registry is
an `Active` recording of this stream. -/
def isAlreadyRecording (st : CoreState) (streamName : String) : Bool :=
  (st.regs.any (fun p => p.2.stream == streamName && p.2.active)) ||
  (st.segs.any (fun p => p.2.stream == streamName && p.2.active))

/-- `isStreamActuallyRecording` (part_003:283-292): internal registry state
OR the external `pgrep` probe of running encoder processes
(`isFFmpegProcessRunning`, modelled by the oracle `probe`). -/
def isStreamActuallyRecording (probe : String → Bool) (st : CoreState)
    (streamName : String) : Bool :=
  isAlreadyRecording st streamName || probe streamName

/-- The per-stream decision of `checkAndStartAutoRecordings`
(part_003:186-230) for a stream of the target set: `startAutoRecording` is
reached iff the stream is not actually recording AND it is available
internally (`streams.Get` non-nil, modelled by `streamExists`) or has a
non-empty resolved direct source. -/
def loopAttemptsStart (probe streamExists : String → Bool) (st : CoreState)
    (streamsCfg : List (String × StreamCfg)) (globalDirect : String)
    (streamName : String) : Bool :=
  !(isStreamActuallyRecording probe st streamName) &&
  (streamExists streamName ||
    effectiveSource streamsCfg globalDirect streamName != "")

/-! ## Reachable states of the core (claim C1)

Transitions of the shared registries, one constructor per start/stop path in
the source. Start paths assume the underlying `Recording.Start` succeeds
(otherwise no job is registered at all). -/

/-- Steps of the core. `managerStart` is a direct
`RecordingManager.StartRecording` call, guarded only by id-uniqueness
(recorder.go:356-382); `schedStart` is the scheduler's
`startScheduledRecording` (recording_scheduler.go:190-207), which reaches the
same `StartRecording` and is guarded only by the schedule's own
`ActiveID == ""`, not by any per-stream check; `autoStart` and `autoStartSeg`
are the reconciliation loop's starts, guarded by `isStreamActuallyRecording`
(part_003:203-219); `managerStop` / `segStop` are the manager stop paths,
which delete the entry. -/
inductive Step (probe : String → Bool) : CoreState → CoreState → Prop
  | managerStart (st : CoreState) (id stream : String)
      (hid : st.regs.lookup id = none) :
      Step probe st { st with
        regs := st.regs ++ [(id, ⟨id, stream, true, true⟩)] }
  | schedStart (st : CoreState) (id stream : String)
      (hid : st.regs.lookup id = none) :
      Step probe st { st with
        regs := st.regs ++ [(id, ⟨id, stream, true, true⟩)] }
  | autoStart (st : CoreState) (id stream : String)
      (hguard : isStreamActuallyRecording probe st stream = false)
      (hid : st.regs.lookup id = none) :
      Step probe st { st with
        regs := st.regs ++ [(id, ⟨id, stream, true, true⟩)] }
  | autoStartSeg (st : CoreState) (id stream : String)
      (hguard : isStreamActuallyRecording probe st stream = false)
      (hid : st.segs.lookup id = none) :
      Step probe st { st with segs := st.segs ++ [(id, ⟨stream, true⟩)] }
  | managerStop (st : CoreState) (id : String) (pubErr : PubStopResult) :
      Step probe st { st with regs := st.regs.filter (fun p => p.1 != id) }
  | segStop (st : CoreState) (id : String) :
      Step probe st { st with segs := st.segs.filter (fun p => p.1 != id) }

/-- States reachable from empty registries. -/
def Reachable (probe : String → Bool) (st : CoreState) : Prop :=
  Relation.ReflTransGen (Step probe) ⟨[], []⟩ st

/-- The reconciliation-loop-only fragment of `Step`: starts guarded by
`isStreamActuallyRecording`, plus the stop paths. -/
inductive ReconStep (probe : String → Bool) : CoreState → CoreState → Prop
  | autoStart (st : CoreState) (id stream : String)
      (hguard : isStreamActuallyRecording probe st stream = false)
      (hid : st.regs.lookup id = none) :
      ReconStep probe st { st with
        regs := st.regs ++ [(id, ⟨id, stream, true, true⟩)] }
  | autoStartSeg (st : CoreState) (id stream : String)
      (hguard : isStreamActuallyRecording probe st stream = false)
      (hid : st.segs.lookup id = none) :
      ReconStep probe st { st with segs := st.segs ++ [(id, ⟨stream, true⟩)] }
  | managerStop (st : CoreState) (id : String) (pubErr : PubStopResult) :
      ReconStep probe st { st with
        regs := st.regs.filter (fun p => p.1 != id) }
  | segStop (st : CoreState) (id : String) :
      ReconStep probe st { st with segs := st.segs.filter (fun p => p.1 != id) }

/-- States reachable from empty registries using only reconciliation-loop
starts and manager stops. -/
def ReconReachable (probe : String → Bool) (st : CoreState) : Prop :=
  Relation.ReflTransGen (ReconStep probe) ⟨[], []⟩ st

/-- Number of actively recording jobs for a stream, across both registries. -/
def activeJobs (st : CoreState) (streamName : String) : Nat :=
  st.regs.countP (fun p => p.2.stream == streamName && p.2.active) +
  st.segs.countP (fun p => p.2.stream == streamName && p.2.active)

/-! ## Cron-style scheduler (src/internal/ffmpeg/recording_scheduler.go)

Go strings are modelled through their character lists; the separators used by
the parser (`","`, `"/"`, `"-"`) are single characters, so `strings.Split`
coincides with splitting the character list on that character. -/

/-- `strings.Split` on a single-character separator: `splitChar ',' "".data =
[[]]`, `splitChar ',' "a,,b".data = [[a],[],[b]]`, as in Go. -/
def splitChar (sep : Char) (l : List Char) : List (List Char) :=
  l.foldr
    (fun c acc =>
      if c = sep then [] :: acc
      else
        match acc with
        | [] => [[c]]
        | g :: gs => (c :: g) :: gs)
    [[]]

/-- `strings.Fields`: maximal runs of non-whitespace characters. -/
def fieldsChar (l : List Char) : List (List Char) :=
  (l.foldr
    (fun c acc =>
      if c.isWhitespace then [] :: acc
      else
        match acc with
        | [] => [[c]]
        | g :: gs => (c :: g) :: gs)
    [[]]).filter (fun g => g ≠ [])

/-- Digit run to number: `some` iff the list is non-empty and all digits. -/
def digitsToNat (l : List Char) : Option Nat :=
  if l = [] then none
  else
    l.foldl
      (fun acc c =>
        match acc with
        | none => none
        | some n => if c.isDigit then some (n * 10 + (c.toNat - '0'.toNat)) else none)
      (some 0)

/-- `strconv.Atoi`: optional sign followed by a non-empty digit run
(the int64 range check is irrelevant at cron-field magnitudes and omitted). -/
def goAtoi (l : List Char) : Option Int :=
  match l with
  | '+' :: rest => (digitsToNat rest).map Int.ofNat
  | '-' :: rest => (digitsToNat rest).map (fun n => -(n : Int))
  | _ => (digitsToNat l).map Int.ofNat

/-- The loop `for i := start; i <= end; i += step` (fuel-indexed; the fuel
chosen by `stepValues` is exhaustive whenever `step ≥ 1`, the only case in
which the Go loop terminates and in which this helper is consulted). -/
def stepValuesAux : Nat → Int → Int → Int → List Int
  | 0, _, _, _ => []
  | fuel + 1, lo, hi, step =>
    if lo ≤ hi then lo :: stepValuesAux fuel (lo + step) hi step else []

/-- Values visited by `for i := start; i <= end; i += step` for `step ≥ 1`. -/
def stepValues (lo hi step : Int) : List Int :=
  stepValuesAux (hi + 1 - lo).toNat lo hi step

/-- One iteration of the `parseField` loop body (recording_scheduler.go:263-340)
on a single comma-separated part. `none` models non-termination of the Go
loop (a parsed step value `≤ 0` with a non-empty iteration range);
`some (.error e)` a returned parse error; `some (.ok vs)` the values this
part contributes (out-of-range values silently dropped by the loop's
`i >= min && i <= max` filter, except in the single-value branch where an
out-of-range literal is a hard error). -/
def parsePart (mn mx : Int) (part : List Char) : Option (Except String (List Int)) :=
  let inRange : Int → Bool := fun i => decide (mn ≤ i) && decide (i ≤ mx)
  if part.contains '/' then
    match splitChar '/' part with
    | [sp0, sp1] =>
      match goAtoi sp1 with
      | none => some (.error ("invalid step value: " ++ ⟨sp1⟩))
      | some step =>
        let startEnd : Except String (Int × Int) :=
          if sp0 = "*".data then .ok (mn, mx)
          else if sp0.contains '-' then
            match splitChar '-' sp0 with
            | [r0, r1] =>
              match goAtoi r0 with
              | none => .error ("invalid range start: " ++ ⟨r0⟩)
              | some lo =>
                match goAtoi r1 with
                | none => .error ("invalid range end: " ++ ⟨r1⟩)
                | some hi => .ok (lo, hi)
            | _ => .error ("invalid range format: " ++ ⟨sp0⟩)
          else
            match goAtoi sp0 with
            | none => .error ("invalid step start: " ++ ⟨sp0⟩)
            | some lo => .ok (lo, lo)
        match startEnd with
        | .error e => some (.error e)
        | .ok (lo, hi) =>
          if step ≤ 0 ∧ lo ≤ hi then none
          else some (.ok ((stepValues lo hi step).filter inRange))
    | _ => some (.error ("invalid step format: " ++ ⟨part⟩))
  else if part.contains '-' then
    match splitChar '-' part with
    | [r0, r1] =>
      match goAtoi r0 with
      | none => some (.error ("invalid range start: " ++ ⟨r0⟩))
      | some lo =>
        match goAtoi r1 with
        | none => some (.error ("invalid range end: " ++ ⟨r1⟩))
        | some hi => some (.ok ((stepValues lo hi 1).filter inRange))
    | _ => some (.error ("invalid range format: " ++ ⟨part⟩))
  else
    match goAtoi part with
    | none => some (.error ("invalid value: " ++ ⟨part⟩))
    | some v =>
      if decide (mn ≤ v) && decide (v ≤ mx) then some (.ok [v])
      else some (.error ("value out of range"))

/-- The `parseField` loop over the comma-separated parts, accumulating the
result slice. -/
def parseFieldGo (mn mx : Int) : List (List Char) → List Int →
    Option (Except String (List Int))
  | [], acc => some (.ok acc)
  | p :: rest, acc =>
    match parsePart mn mx p with
    | none => none
    | some (.error e) => some (.error e)
    | some (.ok vs) => parseFieldGo mn mx rest (acc ++ vs)

/-- `parseField` (recording_scheduler.go:254-343): `*` yields the wildcard
marker `[-1]`; otherwise each comma-separated part is parsed as a stepped
range, a range, or a single value. `none` models the non-terminating cases. -/
def parseField (field : String) (mn mx : Int) : Option (Except String (List Int)) :=
  if field = "*" then some (.ok [-1])
  else parseFieldGo mn mx (splitChar ',' field.data) []

/-- Parsed cron schedule (`ParsedSchedule`, recording_scheduler.go:28-35):
per-field value sets, `[-1]` denoting a wildcard. -/
structure ParsedSchedule where
  minutes : List Int
  hours : List Int
  days : List Int
  months : List Int
  weekdays : List Int
deriving Repr, DecidableEq

/-- `parseSchedule` (recording_scheduler.go:216-251): five
whitespace-separated fields with ranges minute 0-59, hour 0-23, day 1-31,
month 1-12, weekday 0-6, each error wrapped with the field's name. `none`
models the non-terminating cases of `parseField`. -/
def parseSchedule (s : String) : Option (Except String ParsedSchedule) :=
  match fieldsChar s.data with
  | [p0, p1, p2, p3, p4] =>
    match parseField ⟨p0⟩ 0 59 with
    | none => none
    | some (.error e) => some (.error ("invalid minute field: " ++ e))
    | some (.ok minutes) =>
      match parseField ⟨p1⟩ 0 23 with
      | none => none
      | some (.error e) => some (.error ("invalid hour field: " ++ e))
      | some (.ok hours) =>
        match parseField ⟨p2⟩ 1 31 with
        | none => none
        | some (.error e) => some (.error ("invalid day field: " ++ e))
        | some (.ok days) =>
          match parseField ⟨p3⟩ 1 12 with
          | none => none
          | some (.error e) => some (.error ("invalid month field: " ++ e))
          | some (.ok months) =>
            match parseField ⟨p4⟩ 0 6 with
            | none => none
            | some (.error e) => some (.error ("invalid weekday field: " ++ e))
            | some (.ok weekdays) =>
              some (.ok ⟨minutes, hours, days, months, weekdays⟩)
  | _ => some (.error "schedule must have 5 fields: minute hour day month weekday")

/-! ### Calendar: `time.Time` restricted to what the scheduler reads

A time is a whole number of minutes since 1970-01-01 00:00 in the schedule's
(fixed) location; `calculateNextRun` zeroes seconds, so minute granularity is
exact. Civil dates are recovered with the standard Gregorian conversion. -/

/-- Civil date `(year, month, day)` of a day count since 1970-01-01. -/
def daysToCivil (z : Nat) : Nat × Nat × Nat :=
  let z' := z + 719468
  let era := z' / 146097
  let doe := z' % 146097
  let yoe := (doe - doe / 1460 + doe / 36524 - doe / 146096) / 365
  let y := yoe + era * 400
  let doy := doe - (365 * yoe + yoe / 4 - yoe / 100)
  let mp := (5 * doy + 2) / 153
  let d := doy - (153 * mp + 2) / 5 + 1
  let m := if mp < 10 then mp + 3 else mp - 9
  (if m ≤ 2 then y + 1 else y, m, d)

/-- `t.Minute()`. -/
def minuteOf (t : Nat) : Nat := t % 60

/-- `t.Hour()`. -/
def hourOf (t : Nat) : Nat := t / 60 % 24

/-- Days since the epoch. -/
def dayNumOf (t : Nat) : Nat := t / 1440

/-- `t.Weekday()` (Sunday = 0); 1970-01-01 was a Thursday (= 4). -/
def weekdayOf (t : Nat) : Nat := (dayNumOf t + 4) % 7

/-- `t.Day()` (day of month). -/
def dayOf (t : Nat) : Nat := (daysToCivil (dayNumOf t)).2.2

/-- `int(t.Month())`. -/
def monthOf (t : Nat) : Nat := (daysToCivil (dayNumOf t)).2.1

/-- `t.Year()`. -/
def yearOf (t : Nat) : Nat := (daysToCivil (dayNumOf t)).1

/-- `matchesField` (recording_scheduler.go:372-384): wildcard `[-1]` matches
everything, otherwise membership. -/
def matchesField (scheduleField : List Int) (timeValue : Int) : Bool :=
  if scheduleField = [-1] then true else scheduleField.contains timeValue

/-- `matchesSchedule` (recording_scheduler.go:363-369): full five-field
conjunction. -/
def matchesSchedule (p : ParsedSchedule) (t : Nat) : Bool :=
  matchesField p.minutes (minuteOf t) &&
  matchesField p.hours (hourOf t) &&
  matchesField p.days (dayOf t) &&
  matchesField p.months (monthOf t) &&
  matchesField p.weekdays (weekdayOf t)

/-- The scan of `calculateNextRun`: first matching minute at or after `cur`
within `fuel` steps. -/
def findRun (p : ParsedSchedule) (cur : Nat) : Nat → Option Nat
  | 0 => none
  | fuel + 1 =>
    if matchesSchedule p cur then some cur else findRun p (cur + 1) fuel

/-- `calculateNextRun` (recording_scheduler.go:346-360): scan minute-by-minute
from the minute after `from` (seconds zeroed), up to `366*24*60*2` minutes;
fall back to `from + 24h` if nothing matches. -/
def calculateNextRun (p : ParsedSchedule) (fromM : Nat) : Nat :=
  match findRun p (fromM + 1) (366 * 24 * 60 * 2) with
  | some t => t
  | none => fromM + 1440

/-! ## Retention & cleanup engine (src/unnamed/part_004)

Filesystem effects are modelled by the file list a pass sees and the set of
files it deletes; claims C8 and C9 condition on archiving being disabled and
every `os.Remove` succeeding, which is how deletion is modelled here. Times
are in hours (`GetRetentionDuration`'s resolution); sizes in bytes. -/

/-- `CleanupRecordingInfo` (part_004:13-19) restricted to the fields the
policies read: path, owning stream, reconstructed recording time, size. -/
structure RecFile where
  path : String
  stream : String
  recTime : Int
  size : Nat
deriving Repr, DecidableEq

/-- The comparator of the cleanup engine's `sort.Slice` calls:
ascending reconstructed recording time. -/
def byRecTime (a b : RecFile) : Prop := a.recTime ≤ b.recTime

instance : DecidableRel byRecTime := fun a b => Int.decLe a.recTime b.recTime

instance : IsTotal RecFile byRecTime := ⟨fun a b => Int.le_total a.recTime b.recTime⟩

instance : IsTrans RecFile byRecTime := ⟨fun _ _ _ h h' => le_trans h h'⟩

/-- `sort.Slice(recordings, ...RecordingTime.Before...)` — an in-place sort by
ascending recording time, modelled by insertion sort (the Go sort is
unstable; any sorted permutation is a faithful outcome). -/
def sortByRecTime (l : List RecFile) : List RecFile := List.insertionSort byRecTime l

/-- `GetRetentionDuration` (recording_scheduler.go:670-679), in hours:
`RetentionHours` if positive, else `RetentionDays` in hours if positive, else
the 7-day default. -/
def getRetentionDuration (retentionHours retentionDays : Nat) : Nat :=
  if retentionHours > 0 then retentionHours
  else if retentionDays > 0 then retentionDays * 24
  else 7 * 24

/-- The age-policy marking pass of `cleanupStreamWithStats`
(part_004:240-250): files whose reconstructed recording time is strictly
before the cutoff `now - retention`. -/
def ageMarked (cutoff : Int) (recs : List RecFile) : List RecFile :=
  recs.filter (fun r => decide (r.recTime < cutoff))

/-- The full deletion set computed by `cleanupStreamWithStats`
(part_004:223-272) for one stream: the age-policy marks, plus — when
`MaxRecordings` is positive and exceeded — the oldest excess files not
already marked. -/
def cleanupToDelete (maxRecordings : Nat) (cutoff : Int) (recs : List RecFile) :
    List RecFile :=
  let sorted := sortByRecTime recs
  let aged := ageMarked cutoff sorted
  if maxRecordings > 0 ∧ sorted.length > maxRecordings then
    aged ++ ((sorted.take (sorted.length - maxRecordings)).filter
      (fun r => !(aged.any (fun d => d.path == r.path))))
  else aged

/-- The files of a pass that remain after deleting `deletes` (deletions keyed
by path, all assumed to succeed, archiving disabled). -/
def survivors (recs deletes : List RecFile) : List RecFile :=
  recs.filter (fun r => !(deletes.any (fun d => d.path == r.path)))

/-- Total size in bytes of a file list. -/
def sumSizes (l : List RecFile) : Nat := (l.map (·.size)).sum

/-- The deletion loop of `enforceGlobalSizeLimitWithStats` (part_004:334-364):
walk the time-sorted list, deleting while the running total exceeds the cap
(every delete assumed to succeed and its size subtracted). -/
def dropOldest : List RecFile → Nat → Nat → List RecFile
  | [], _, _ => []
  | r :: rest, total, maxBytes =>
    if total ≤ maxBytes then []
    else r :: dropOldest rest (total - r.size) maxBytes

/-- `enforceGlobalSizeLimitWithStats` (part_004:307-367): no deletions when
the combined size of all streams' files is within `MaxTotalSize` MB;
otherwise delete globally-oldest-first (by recording time, ignoring stream
boundaries) until at or under the cap. Returns the deletion list in order. -/
def enforceGlobalDeletes (maxTotalSizeMB : Nat) (recs : List RecFile) :
    List RecFile :=
  let maxBytes := maxTotalSizeMB * 1024 * 1024
  let total := sumSizes recs
  if total ≤ maxBytes then []
  else dropOldest (sortByRecTime recs) total maxBytes

/-! ## Theorems -/

/-- Deleting an id from a registry makes its lookup miss. -/
theorem lookup_filter_ne (regs : Registry) (id : String) :
    (regs.filter (fun p => p.1 != id)).lookup id = none := by
  induction regs with
  | nil => rfl
  | cons p t ih =>
    by_cases h : p.1 = id
    · simpa [List.filter_cons, h] using ih
    · simp [List.filter_cons, bne_iff_ne, h, List.lookup,
        show (id == p.1) = false from by simp [Ne.symm h], ih]

/-- C3 evaluated at the failing input: starting the first segment of a fresh
`SegmentedRecording` uses index 1 but leaves the counter at 2, and the first
rotation stops the running segment and then starts a segment with index 3 —
the counter is incremented twice per `startNextSegment`
(recording_segments.go:91 and recording_segments.go:137), so indices skip
1, 3, 5, ... rather than running consecutively as the spec states. -/
theorem segment_counter_double_increment :
    (startNextSegment newSegmented).2.1 = 1
    ∧ (startNextSegment newSegmented).1.currentSegment = 2
    ∧ (startNextSegment (startNextSegment newSegmented).1).2.1 = 3
    ∧ (startNextSegment (startNextSegment newSegmented).1).2.2 =
        [SegEvent.stopRec, SegEvent.startRec 3] := by
  decide

/-- C2 counterexample: starting id "a", stopping it successfully, and calling
the manager's stop a second time with the same id yields a not-found error,
not success — `StopRecording` deregisters the id on the first call
(recorder.go:394). -/
theorem second_manager_stop_errors :
    (stopRecording (startRecording [] "a" "cam" true).1 "a" none).2 = none
    ∧ (stopRecording
        (stopRecording (startRecording [] "a" "cam" true).1 "a" none).1
        "a" none).2 = some "recording with ID a not found" := by
  exact ⟨rfl, rfl⟩

/-- C2 (amended): stop is idempotent at the job level — after a successful
`Recording.Stop` the job is inactive and a second `Recording.Stop` is a no-op
returning success with the state unchanged — while the manager's
`StopRecording` deletes the id from the registry, so any manager-level stop
of an unregistered id returns an error. -/
theorem recording_stop_idempotent (r : Recording) (e₁ e₂ : PubStopResult)
    (h : (r.stop e₁).2 = none) :
    ((r.stop e₁).1.active = false
      ∧ (r.stop e₁).1.stop e₂ = ((r.stop e₁).1, none))
    ∧ ∀ (regs : Registry) (id : String) (pe : PubStopResult),
        regs.lookup id = none →
        (stopRecording regs id pe).2 =
          some ("recording with ID " ++ id ++ " not found") := by
  constructor
  · obtain ⟨i, s, act, pub⟩ := r
    cases act <;> cases pub <;> cases e₁ <;> simp_all [Recording.stop]
  · intro regs id pe hl
    simp [stopRecording, hl]

/-- C2 witness: the amended statement at a concrete active job. -/
theorem recording_stop_idempotent_witness :
    ((Recording.mk "a" "cam" true true).stop none).1.active = false
    ∧ ((Recording.mk "a" "cam" true true).stop none).1.stop none =
        (((Recording.mk "a" "cam" true true).stop none).1, none) :=
  (recording_stop_idempotent ⟨"a", "cam", true, true⟩ none none rfl).1

/-- C10: when `StopRecording` hits a registered, active job whose underlying
publisher stop fails, the job is still deleted from the registry before the
error is returned: the wrapped error comes back, the id no longer resolves,
and a further manager stop of the same id reports not-found. -/
theorem failed_stop_still_deregisters (regs : Registry) (id : String)
    (r : Recording) (e : String) (hlook : regs.lookup id = some r)
    (hact : r.active = true) (hpub : r.hasPublisher = true) :
    (stopRecording regs id (some e)).2 = some ("failed to stop recording: " ++ e)
    ∧ (stopRecording regs id (some e)).1.lookup id = none
    ∧ (stopRecording (stopRecording regs id (some e)).1 id none).2 =
        some ("recording with ID " ++ id ++ " not found") := by
  have hstop : stopRecording regs id (some e) =
      (regs.filter (fun p => p.1 != id),
        some ("failed to stop recording: " ++ e)) := by
    simp [stopRecording, hlook, Recording.stop, hact, hpub]
  refine ⟨by rw [hstop], ?_, ?_⟩
  · rw [hstop]
    exact lookup_filter_ne regs id
  · rw [hstop]
    simp [stopRecording, lookup_filter_ne]

/-- C10 witness: the statement at a concrete one-job registry whose publisher
stop fails. -/
theorem failed_stop_still_deregisters_witness :
    (stopRecording [("a", ⟨"a", "cam", true, true⟩)] "a" (some "boom")).2 =
        some ("failed to stop recording: " ++ "boom")
    ∧ (stopRecording [("a", ⟨"a", "cam", true, true⟩)] "a"
        (some "boom")).1.lookup "a" = none
    ∧ (stopRecording
        (stopRecording [("a", ⟨"a", "cam", true, true⟩)] "a" (some "boom")).1
        "a" none).2 = some ("recording with ID " ++ "a" ++ " not found") :=
  failed_stop_still_deregisters [("a", ⟨"a", "cam", true, true⟩)] "a"
    ⟨"a", "cam", true, true⟩ "boom" rfl rfl rfl

/-- A false reconciliation guard means neither registry holds an active job
for the stream and the probe is silent. -/
theorem guard_false_elim {probe : String → Bool} {st : CoreState} {stream : String}
    (h : isStreamActuallyRecording probe st stream = false) :
    st.regs.countP (fun p => p.2.stream == stream && p.2.active) = 0
    ∧ st.segs.countP (fun p => p.2.stream == stream && p.2.active) = 0
    ∧ probe stream = false := by
  have h' := h
  simp only [isStreamActuallyRecording, isAlreadyRecording, Bool.or_eq_false_iff] at h'
  obtain ⟨⟨h1, h2⟩, h3⟩ := h'
  refine ⟨?_, ?_, h3⟩
  · exact List.countP_eq_zero.mpr (by simpa [List.any_eq_true] using h1)
  · exact List.countP_eq_zero.mpr (by simpa [List.any_eq_true] using h2)

/-- C1 counterexample: the state with two simultaneously active jobs for
stream "cam" is reachable — two direct `StartRecording` calls with distinct
ids succeed because the manager guards only id-uniqueness, with no check of
the stream, the registries, or the probe (recorder.go:356-382). -/
theorem two_active_jobs_reachable :
    Reachable (fun _ => false)
      ⟨[("a", ⟨"a", "cam", true, true⟩), ("b", ⟨"b", "cam", true, true⟩)], []⟩
    ∧ activeJobs
      ⟨[("a", ⟨"a", "cam", true, true⟩), ("b", ⟨"b", "cam", true, true⟩)], []⟩
      "cam" = 2 := by
  have h1 : Step (fun _ => false) ⟨[], []⟩
      ⟨[("a", ⟨"a", "cam", true, true⟩)], []⟩ :=
    Step.managerStart ⟨[], []⟩ "a" "cam" rfl
  have h2 : Step (fun _ => false) ⟨[("a", ⟨"a", "cam", true, true⟩)], []⟩
      ⟨[("a", ⟨"a", "cam", true, true⟩), ("b", ⟨"b", "cam", true, true⟩)], []⟩ :=
    Step.managerStart ⟨[("a", ⟨"a", "cam", true, true⟩)], []⟩ "b" "cam"
      (by decide)
  exact ⟨(Relation.ReflTransGen.single h1).tail h2, by decide⟩

/-- C1 (amended): starts guarded by the reconciliation loop's
`isStreamActuallyRecording` check (registries OR external probe) preserve
per-stream uniqueness — in the fragment with only such starts and the stop
paths, every reachable state has at most one actively recording job per
stream. (By `two_active_jobs_reachable` this fails for the full system,
whose direct-manager and scheduler starts check only the id, resp. the
schedule's own `ActiveID`.) -/
theorem recon_at_most_one_active (probe : String → Bool) (st : CoreState)
    (h : ReconReachable probe st) : ∀ s, activeJobs st s ≤ 1 := by
  induction h with
  | refl => intro s; simp [activeJobs]
  | tail _ hstep ih =>
    cases hstep with
    | autoStart id stream hguard hid =>
      intro s
      by_cases hs : stream = s
      · subst hs
        have hz := guard_false_elim hguard
        simp [activeJobs, List.countP_append, hz.1, hz.2.1, List.countP_cons]
      · have := ih s
        simpa [activeJobs, List.countP_append, List.countP_cons,
          show (stream == s) = false from by simp [hs]] using this
    | autoStartSeg id stream hguard hid =>
      intro s
      by_cases hs : stream = s
      · subst hs
        have hz := guard_false_elim hguard
        simp [activeJobs, List.countP_append, hz.1, hz.2.1, List.countP_cons]
      · have := ih s
        simpa [activeJobs, List.countP_append, List.countP_cons,
          show (stream == s) = false from by simp [hs]] using this
    | managerStop id pubErr =>
      intro s
      refine le_trans ?_ (ih s)
      exact Nat.add_le_add ((List.filter_sublist _).countP_le _) (Nat.le_refl _)
    | segStop id =>
      intro s
      refine le_trans ?_ (ih s)
      exact Nat.add_le_add (Nat.le_refl _) ((List.filter_sublist _).countP_le _)

/-- C1 witness: the amended invariant at a concrete reachable state (one
reconciliation-loop start from empty registries). -/
theorem recon_at_most_one_active_witness :
    activeJobs ⟨[("auto_cam_1", ⟨"auto_cam_1", "cam", true, true⟩)], []⟩ "cam" ≤ 1 :=
  recon_at_most_one_active (fun _ => false)
    ⟨[("auto_cam_1", ⟨"auto_cam_1", "cam", true, true⟩)], []⟩
    (Relation.ReflTransGen.single
      (ReconStep.autoStart ⟨[], []⟩ "auto_cam_1" "cam" (by decide) rfl)) "cam"

/-- The effective-enabled test of the target-set filter resolves true exactly
when the stream is not explicitly disabled. -/
theorem effectiveEnabled_iff (c : StreamCfg) :
    ((match c.enabled with
      | some b => b
      | none => true) = true) ↔ c.enabled ≠ some false := by
  cases h : c.enabled with
  | none => simp
  | some b => cases b <;> simp

/-- C6: the auto-record target set has exactly two modes. With any per-stream
configuration present, membership is exactly "configured and not explicitly
disabled" (explicit `true`, or configured with no explicit `enabled`); with
no per-stream configuration, global auto-start selects every currently known
stream, and if it is off the target set is empty. `IsStreamRecordingEnabled`
agrees: an explicitly configured stream resolves to `enabled.getD true`, an
unconfigured one to auto-start-with-no-configured-streams. -/
theorem auto_record_target_set (autoStart : Bool)
    (streamsCfg : List (String × StreamCfg)) (allNames : List String) :
    (streamsCfg ≠ [] →
      ∀ s, s ∈ getStreamsToRecord autoStart streamsCfg allNames ↔
        ∃ c, (s, c) ∈ streamsCfg ∧ c.enabled ≠ some false)
    ∧ (streamsCfg = [] → autoStart = true →
        getStreamsToRecord autoStart streamsCfg allNames = allNames)
    ∧ (streamsCfg = [] → autoStart = false →
        getStreamsToRecord autoStart streamsCfg allNames = [])
    ∧ (∀ s c, streamsCfg.lookup s = some c →
        isStreamRecordingEnabled autoStart streamsCfg s = c.enabled.getD true)
    ∧ (∀ s, streamsCfg.lookup s = none →
        isStreamRecordingEnabled autoStart streamsCfg s =
          (autoStart && streamsCfg.isEmpty)) := by
  refine ⟨?_, ?_, ?_, ?_, ?_⟩
  · intro hne s
    have hcond : (autoStart && streamsCfg.isEmpty) = false := by
      cases autoStart <;> simp [List.isEmpty_iff, hne]
    simp only [getStreamsToRecord, hcond, Bool.false_eq_true, if_false,
      List.mem_map, List.mem_filter]
    constructor
    · rintro ⟨p, ⟨hp, hpred⟩, rfl⟩
      exact ⟨p.2, hp, (effectiveEnabled_iff p.2).mp hpred⟩
    · rintro ⟨c, hc, hen⟩
      exact ⟨(s, c), ⟨hc, (effectiveEnabled_iff c).mpr hen⟩, rfl⟩
  · rintro rfl rfl
    simp [getStreamsToRecord]
  · rintro rfl rfl
    simp [getStreamsToRecord]
  · intro s c hc
    cases h : c.enabled <;>
      simp [isStreamRecordingEnabled, hc, h]
  · intro s hs
    simp [isStreamRecordingEnabled, hs]

/-- C6 witness: the target-set characterization at a concrete configuration
with one enabled and one explicitly disabled stream. -/
theorem auto_record_target_set_witness :
    "cam" ∈ getStreamsToRecord false
      [("cam", ⟨some true, ""⟩), ("door", ⟨some false, ""⟩)] [] :=
  ((auto_record_target_set false
      [("cam", ⟨some true, ""⟩), ("door", ⟨some false, ""⟩)] []).1
    (by simp) "cam").mpr ⟨⟨some true, ""⟩, by simp, by simp⟩

/-- C7 counterexample: a target-set stream with both signals reporting "not
recording" for which the loop nevertheless does not attempt a start — the
stream is not available internally and resolves no direct source, so
`checkAndStartAutoRecordings` returns before `startAutoRecording`
(part_003:210-213); the claim's "if and only if" fails in the "if"
direction. -/
theorem no_start_despite_idle_signals :
    loopAttemptsStart (fun _ => false) (fun _ => false) ⟨[], []⟩
      [("cam", ⟨some true, ""⟩)] "" "cam" = false
    ∧ isStreamActuallyRecording (fun _ => false) ⟨[], []⟩ "cam" = false
    ∧ "cam" ∈ getStreamsToRecord false [("cam", ⟨some true, ""⟩)] [] := by
  refine ⟨by decide, rfl, by decide⟩

/-- C7 (amended): the "already recording" decision is the logical OR of the
two independent signals — an active entry of either in-memory registry for
the stream, and the external process probe — and the loop attempts a start
iff both signals report not recording AND the stream is available internally
or resolves a non-empty direct source; in particular every attempted start
has both signals reporting not recording. -/
theorem recon_start_decision (probe streamExists : String → Bool)
    (st : CoreState) (streamsCfg : List (String × StreamCfg))
    (gd n : String) :
    (isStreamActuallyRecording probe st n = (isAlreadyRecording st n || probe n))
    ∧ (isAlreadyRecording st n = true ↔
        (∃ p ∈ st.regs, p.2.stream = n ∧ p.2.active = true) ∨
        (∃ p ∈ st.segs, p.2.stream = n ∧ p.2.active = true))
    ∧ (loopAttemptsStart probe streamExists st streamsCfg gd n = true ↔
        (isStreamActuallyRecording probe st n = false ∧
          (streamExists n = true ∨ effectiveSource streamsCfg gd n ≠ "")))
    ∧ (loopAttemptsStart probe streamExists st streamsCfg gd n = true →
        isAlreadyRecording st n = false ∧ probe n = false) := by
  refine ⟨rfl, ?_, ?_, ?_⟩
  · simp [isAlreadyRecording, List.any_eq_true]
  · simp [loopAttemptsStart, Bool.and_eq_true, Bool.not_eq_true',
      bne_iff_ne]
  · intro h
    have h' : isStreamActuallyRecording probe st n = false := by
      simp only [loopAttemptsStart, Bool.and_eq_true, Bool.not_eq_true'] at h
      exact h.1
    simpa [isStreamActuallyRecording, Bool.or_eq_false_iff] using h'

/-- C7 witness: the decision at a concrete state where the start is
attempted. -/
theorem recon_start_decision_witness :
    isAlreadyRecording ⟨[], []⟩ "cam" = false
    ∧ (fun (_ : String) => false) "cam" = false :=
  (recon_start_decision (fun _ => false) (fun _ => true) ⟨[], []⟩ [] "" "cam").2.2.2
    (by decide)

/-- C4 counterexample: `"60-61 * * * *"` — both range bounds out of the
minute range — parses successfully, with an empty minute set, instead of
failing: the range branch of `parseField`
(recording_scheduler.go:305-326) silently filters out-of-range values with
`i >= min && i <= max` rather than rejecting them, and the resulting field
set matches no time at all. -/
theorem out_of_range_range_parses :
    parseSchedule "60-61 * * * *" = some (.ok ⟨[], [-1], [-1], [-1], [-1]⟩)
    ∧ matchesSchedule ⟨[], [-1], [-1], [-1], [-1]⟩ 0 = false := ⟨rfl, rfl⟩

/-- C4 (amended): an out-of-range *plain* literal in a field is rejected with
a descriptive error (recording_scheduler.go:327-339), and malformed syntax is
rejected with a descriptive error on every parser error path — a non-numeric
plain value, a range without exactly two components, a non-numeric range
start or end, a stepped part without exactly two components, a non-numeric
step value or step start, the same range errors inside a stepped part, an
error in any comma-separated part failing the whole field, and a wrong
field count failing the whole expression — but out-of-range bounds inside
ranges and stepped ranges are silently dropped, so an expression such as
`"60-61 * * * *"` parses successfully into a field set that matches no time
at all. -/
theorem cron_literal_validation :
    (∀ (part : List Char) (v mn mx : Int), part.contains '/' = false →
      part.contains '-' = false → goAtoi part = some v → (v < mn ∨ mx < v) →
      parsePart mn mx part = some (.error "value out of range"))
    ∧ (∀ (part : List Char) (mn mx : Int), part.contains '/' = false →
        part.contains '-' = false → goAtoi part = none →
        parsePart mn mx part = some (.error ("invalid value: " ++ ⟨part⟩)))
    ∧ (∀ (part : List Char) (l : List (List Char)) (mn mx : Int),
        part.contains '/' = false → part.contains '-' = true →
        splitChar '-' part = l → l.length ≠ 2 →
        parsePart mn mx part = some (.error ("invalid range format: " ++ ⟨part⟩)))
    ∧ (∀ (part r0 r1 : List Char) (mn mx : Int), part.contains '/' = false →
        part.contains '-' = true → splitChar '-' part = [r0, r1] →
        goAtoi r0 = none →
        parsePart mn mx part = some (.error ("invalid range start: " ++ ⟨r0⟩)))
    ∧ (∀ (part r0 r1 : List Char) (lo mn mx : Int), part.contains '/' = false →
        part.contains '-' = true → splitChar '-' part = [r0, r1] →
        goAtoi r0 = some lo → goAtoi r1 = none →
        parsePart mn mx part = some (.error ("invalid range end: " ++ ⟨r1⟩)))
    ∧ (∀ (part : List Char) (l : List (List Char)) (mn mx : Int),
        part.contains '/' = true → splitChar '/' part = l → l.length ≠ 2 →
        parsePart mn mx part = some (.error ("invalid step format: " ++ ⟨part⟩)))
    ∧ (∀ (part sp0 sp1 : List Char) (mn mx : Int), part.contains '/' = true →
        splitChar '/' part = [sp0, sp1] → goAtoi sp1 = none →
        parsePart mn mx part = some (.error ("invalid step value: " ++ ⟨sp1⟩)))
    ∧ (∀ (part sp0 sp1 : List Char) (st : Int) (l : List (List Char)) (mn mx : Int),
        part.contains '/' = true → splitChar '/' part = [sp0, sp1] →
        goAtoi sp1 = some st → sp0.contains '-' = true →
        splitChar '-' sp0 = l → l.length ≠ 2 →
        parsePart mn mx part = some (.error ("invalid range format: " ++ ⟨sp0⟩)))
    ∧ (∀ (part sp0 sp1 r0 r1 : List Char) (st : Int) (mn mx : Int),
        part.contains '/' = true → splitChar '/' part = [sp0, sp1] →
        goAtoi sp1 = some st → sp0.contains '-' = true →
        splitChar '-' sp0 = [r0, r1] → goAtoi r0 = none →
        parsePart mn mx part = some (.error ("invalid range start: " ++ ⟨r0⟩)))
    ∧ (∀ (part sp0 sp1 r0 r1 : List Char) (st lo : Int) (mn mx : Int),
        part.contains '/' = true → splitChar '/' part = [sp0, sp1] →
        goAtoi sp1 = some st → sp0.contains '-' = true →
        splitChar '-' sp0 = [r0, r1] → goAtoi r0 = some lo → goAtoi r1 = none →
        parsePart mn mx part = some (.error ("invalid range end: " ++ ⟨r1⟩)))
    ∧ (∀ (part sp0 sp1 : List Char) (st : Int) (mn mx : Int),
        part.contains '/' = true → splitChar '/' part = [sp0, sp1] →
        goAtoi sp1 = some st → sp0 ≠ "*".data → sp0.contains '-' = false →
        goAtoi sp0 = none →
        parsePart mn mx part = some (.error ("invalid step start: " ++ ⟨sp0⟩)))
    ∧ (∀ (mn mx : Int) (p : List Char) (rest : List (List Char))
        (acc : List Int) (e : String), parsePart mn mx p = some (.error e) →
        parseFieldGo mn mx (p :: rest) acc = some (.error e))
    ∧ (∀ (field : String) (mn mx : Int), field ≠ "*" →
        parseField field mn mx = parseFieldGo mn mx (splitChar ',' field.data) [])
    ∧ (∀ s : String, (fieldsChar s.data).length ≠ 5 →
        parseSchedule s =
          some (.error "schedule must have 5 fields: minute hour day month weekday"))
    ∧ parseSchedule "1-2-3 * * * *" =
        some (.error ("invalid minute field: invalid range format: " ++ "1-2-3"))
    ∧ (∀ t : Nat, matchesSchedule ⟨[], [-1], [-1], [-1], [-1]⟩ t = false)
    ∧ parseSchedule "60-61 * * * *" = some (.ok ⟨[], [-1], [-1], [-1], [-1]⟩) := by
  refine ⟨?_, ?_, ?_, ?_, ?_, ?_, ?_, ?_, ?_, ?_, ?_, ?_, ?_, ?_, rfl,
    fun t => rfl, rfl⟩
  · intro part v mn mx hs hd hv hout
    have hb : (decide (mn ≤ v) && decide (v ≤ mx)) = false := by
      simp only [Bool.and_eq_false_iff, decide_eq_false_iff_not, not_le]
      omega
    unfold parsePart
    rw [hs, hd, hv]
    simp [hb]
  · intro part mn mx hs hd hv
    unfold parsePart
    rw [hs, hd, hv]
    simp
  · intro part l mn mx hs hd hsplit hlen
    unfold parsePart
    rw [hs, hd]
    rcases l with _ | ⟨a, _ | ⟨b, _ | ⟨c, l'⟩⟩⟩
    · simp [hsplit]
    · simp [hsplit]
    · rw [List.length_cons, List.length_cons, List.length_nil] at hlen
      exact absurd rfl hlen
    · simp [hsplit]
  · intro part r0 r1 mn mx hs hd hsplit h0
    unfold parsePart
    rw [hs, hd]
    simp [hsplit, h0]
  · intro part r0 r1 lo mn mx hs hd hsplit h0 h1
    unfold parsePart
    rw [hs, hd]
    simp [hsplit, h0, h1]
  · intro part l mn mx hs hsplit hlen
    unfold parsePart
    rw [hs]
    rcases l with _ | ⟨a, _ | ⟨b, _ | ⟨c, l'⟩⟩⟩
    · simp [hsplit]
    · simp [hsplit]
    · rw [List.length_cons, List.length_cons, List.length_nil] at hlen
      exact absurd rfl hlen
    · simp [hsplit]
  · intro part sp0 sp1 mn mx hs hsplit h1
    unfold parsePart
    rw [hs]
    simp [hsplit, h1]
  · intro part sp0 sp1 st l mn mx hs hsplit hst hd0 hsplit0 hlen
    have hstar : ¬sp0 = "*".data := by
      intro he
      rw [he] at hd0
      exact absurd hd0 (by decide)
    have hd0m : '-' ∈ sp0 := by simpa using hd0
    unfold parsePart
    rw [hs]
    rcases l with _ | ⟨a, _ | ⟨b, _ | ⟨c, l'⟩⟩⟩
    · simp [hsplit, hst, hstar, hd0m, hsplit0]
    · simp [hsplit, hst, hstar, hd0m, hsplit0]
    · rw [List.length_cons, List.length_cons, List.length_nil] at hlen
      exact absurd rfl hlen
    · simp [hsplit, hst, hstar, hd0m, hsplit0]
  · intro part sp0 sp1 r0 r1 st mn mx hs hsplit hst hd0 hsplit0 h0
    have hstar : ¬sp0 = "*".data := by
      intro he
      rw [he] at hd0
      exact absurd hd0 (by decide)
    have hd0m : '-' ∈ sp0 := by simpa using hd0
    unfold parsePart
    rw [hs]
    simp [hsplit, hst, hstar, hd0m, hsplit0, h0]
  · intro part sp0 sp1 r0 r1 st lo mn mx hs hsplit hst hd0 hsplit0 h0 h1
    have hstar : ¬sp0 = "*".data := by
      intro he
      rw [he] at hd0
      exact absurd hd0 (by decide)
    have hd0m : '-' ∈ sp0 := by simpa using hd0
    unfold parsePart
    rw [hs]
    simp [hsplit, hst, hstar, hd0m, hsplit0, h0, h1]
  · intro part sp0 sp1 st mn mx hs hsplit hst hstar hd0 h0
    have hd0m : ¬('-' ∈ sp0) := by simpa using hd0
    unfold parsePart
    rw [hs]
    simp [hsplit, hst, hstar, hd0m, h0]
  · intro mn mx p rest acc e hp
    unfold parseFieldGo
    rw [hp]
  · intro field mn mx hf
    unfold parseField
    rw [if_neg hf]
  · intro s h
    unfold parseSchedule
    rcases hl : fieldsChar s.data with
      _ | ⟨p0, _ | ⟨p1, _ | ⟨p2, _ | ⟨p3, _ | ⟨p4, rest⟩⟩⟩⟩⟩
    · rfl
    · rfl
    · rfl
    · rfl
    · rfl
    · rcases rest with _ | ⟨p5, rest'⟩
      · rw [hl] at h
        simp at h
      · rfl

/-- C4 witness: the literal `61` in the minute field (range 0-59) is a hard
parse error, and so is the malformed range `1-2-3`. -/
theorem cron_literal_validation_witness :
    parsePart 0 59 "61".data = some (.error "value out of range")
    ∧ parsePart 0 59 "1-2-3".data =
        some (.error ("invalid range format: " ++ "1-2-3")) :=
  ⟨cron_literal_validation.1 "61".data 61 0 59 (by decide) (by decide) rfl
      (Or.inr (by decide)),
   cron_literal_validation.2.2.1 "1-2-3".data [['1'], ['2'], ['3']] 0 59
      (by decide) (by decide) rfl (by decide)⟩

/-- The scan of `calculateNextRun` returns the first matching minute when one
exists within the fuel window. -/
theorem findRun_eq (p : ParsedSchedule) :
    ∀ (fuel cur m : Nat), cur ≤ m → matchesSchedule p m = true →
      (∀ u, cur ≤ u → u < m → matchesSchedule p u = false) →
      m < cur + fuel → findRun p cur fuel = some m := by
  intro fuel
  induction fuel with
  | zero =>
    intro cur m h1 _ _ h4
    omega
  | succ n ih =>
    intro cur m h1 h2 h3 h4
    by_cases hc : matchesSchedule p cur = true
    · have hcm : cur = m := by
        by_contra hne
        have hlt : cur < m := lt_of_le_of_ne h1 hne
        have := h3 cur (le_refl _) hlt
        rw [this] at hc
        exact absurd hc (by simp)
      subst hcm
      simp [findRun, hc]
    · have hne : cur ≠ m := fun he => hc (he ▸ h2)
      have hstep : findRun p cur (n + 1) = findRun p (cur + 1) n := by
        simp [findRun, hc]
      rw [hstep]
      exact ih (cur + 1) m (by omega) h2
        (fun u hu1 hu2 => h3 u (by omega) hu2) (by omega)

set_option maxRecDepth 100000 in
/-- C5: `calculateNextRun` returns the earliest minute strictly after `from`
(seconds zeroed) at which all five fields match, whenever such a minute
exists within the two-year scan window; in particular `"0 9 * * 1-5"`
evaluated from Saturday 2025-01-04 10:00 yields Monday 2025-01-06 09:00 (the
following Monday, two days later), and `"*/15 * * * *"` matches exactly four
minutes of every hour. Times are minutes since 1970-01-01 00:00. -/
theorem next_run_correct :
    (∀ (p : ParsedSchedule) (fromM m : Nat), fromM < m →
      matchesSchedule p m = true →
      (∀ u, fromM < u → u < m → matchesSchedule p u = false) →
      m ≤ fromM + 366 * 24 * 60 * 2 →
      calculateNextRun p fromM = m)
    ∧ (parseSchedule "0 9 * * 1-5" =
        some (.ok ⟨[0], [9], [-1], [-1], [1, 2, 3, 4, 5]⟩)
      ∧ weekdayOf 28933080 = 6
      ∧ daysToCivil (dayNumOf 28933080) = (2025, 1, 4)
      ∧ hourOf 28933080 = 10
      ∧ calculateNextRun ⟨[0], [9], [-1], [-1], [1, 2, 3, 4, 5]⟩ 28933080 =
          28935900
      ∧ weekdayOf 28935900 = 1
      ∧ daysToCivil (dayNumOf 28935900) = (2025, 1, 6)
      ∧ hourOf 28935900 = 9 ∧ minuteOf 28935900 = 0
      ∧ dayNumOf 28935900 = dayNumOf 28933080 + 2)
    ∧ (parseSchedule "*/15 * * * *" =
        some (.ok ⟨[0, 15, 30, 45], [-1], [-1], [-1], [-1]⟩)
      ∧ ∀ h : Nat,
          ((List.range 60).filter
            (fun m => matchesSchedule ⟨[0, 15, 30, 45], [-1], [-1], [-1], [-1]⟩
              (h * 60 + m))).length = 4) := by
  refine ⟨?_, ⟨rfl, rfl, rfl, rfl, by decide, rfl, rfl, rfl, rfl, rfl⟩,
    rfl, ?_⟩
  · intro p fromM m h1 h2 h3 h4
    have hfind := findRun_eq p (366 * 24 * 60 * 2) (fromM + 1) m (by omega) h2
      (fun u hu1 hu2 => h3 u (by omega) hu2) (by omega)
    simp [calculateNextRun, hfind]
  · intro h
    have key : ∀ m ∈ List.range 60,
        matchesSchedule ⟨[0, 15, 30, 45], [-1], [-1], [-1], [-1]⟩ (h * 60 + m)
          = matchesField [0, 15, 30, 45] (m : Int) := by
      intro m hm
      rw [List.mem_range] at hm
      have hmod : (h * 60 + m) % 60 = m := by omega
      simp [matchesSchedule, minuteOf, hmod, matchesField]
    rw [List.filter_congr key]
    decide

/-- C5 witness: the earliest-match characterization at the all-wildcard
schedule, whose next run from minute 0 is minute 1. -/
theorem next_run_correct_witness :
    calculateNextRun ⟨[-1], [-1], [-1], [-1], [-1]⟩ 0 = 1 :=
  next_run_correct.1 ⟨[-1], [-1], [-1], [-1], [-1]⟩ 0 1 (by decide) (by decide)
    (fun u hu1 hu2 => absurd hu2 (by omega)) (by norm_num)

theorem sumSizes_nil : sumSizes [] = 0 := rfl

theorem sumSizes_cons (r : RecFile) (l : List RecFile) :
    sumSizes (r :: l) = r.size + sumSizes l := by
  simp [sumSizes]

theorem sumSizes_append (l₁ l₂ : List RecFile) :
    sumSizes (l₁ ++ l₂) = sumSizes l₁ + sumSizes l₂ := by
  simp [sumSizes]

theorem sumSizes_perm {l₁ l₂ : List RecFile} (h : l₁.Perm l₂) :
    sumSizes l₁ = sumSizes l₂ := by
  simpa [sumSizes] using (h.map (·.size)).sum_eq

/-- C8: the age policy of `cleanupStreamWithStats` marks exactly the files
whose reconstructed recording time is strictly older than `now - retention`,
where the retention duration (in hours) is `RetentionHours` if positive, else
`RetentionDays` if positive, else the 7-day default; consequently — with
archiving disabled and every deletion succeeding — no file surviving the pass
(age plus count policy) is older than the cutoff. -/
theorem retention_age_policy :
    (∀ rh rd : Nat, (0 < rh → getRetentionDuration rh rd = rh)
      ∧ (rh = 0 → 0 < rd → getRetentionDuration rh rd = rd * 24)
      ∧ (rh = 0 → rd = 0 → getRetentionDuration rh rd = 7 * 24))
    ∧ (∀ (cutoff : Int) (recs : List RecFile) (r : RecFile),
        r ∈ ageMarked cutoff (sortByRecTime recs) ↔
          r ∈ recs ∧ r.recTime < cutoff)
    ∧ (∀ (maxRec : Nat) (cutoff : Int) (recs : List RecFile) (r : RecFile),
        r ∈ survivors recs (cleanupToDelete maxRec cutoff recs) →
          cutoff ≤ r.recTime) := by
  refine ⟨?_, ?_, ?_⟩
  · intro rh rd
    refine ⟨fun h => by simp [getRetentionDuration, h], ?_, ?_⟩
    · rintro rfl h
      simp [getRetentionDuration, h]
    · rintro rfl rfl
      simp [getRetentionDuration]
  · intro cutoff recs r
    simp [ageMarked, List.mem_filter, sortByRecTime,
      (List.perm_insertionSort byRecTime recs).mem_iff, and_comm]
  · intro maxRec cutoff recs r hr
    by_contra hlt
    push_neg at hlt
    have hmem : r ∈ recs ∧
        ∀ x ∈ cleanupToDelete maxRec cutoff recs, ¬x.path = r.path := by
      simpa [survivors, List.mem_filter] using hr
    have haged : r ∈ ageMarked cutoff (sortByRecTime recs) := by
      rw [ageMarked, List.mem_filter]
      exact ⟨((List.perm_insertionSort byRecTime recs).mem_iff).mpr hmem.1,
        by simpa using hlt⟩
    have hdel : r ∈ cleanupToDelete maxRec cutoff recs := by
      simp only [cleanupToDelete]
      split
      · exact List.mem_append_left _ haged
      · exact haged
    exact absurd rfl (hmem.2 r hdel)

/-- C8 witness: the no-survivor-older-than-cutoff property at a concrete
one-file pass, and the three retention-selection cases at concrete configs. -/
theorem retention_age_policy_witness :
    ((0 : Int) ≤ (RecFile.mk "f.mp4" "cam" 5 10).recTime)
    ∧ getRetentionDuration 12 7 = 12
    ∧ getRetentionDuration 0 7 = 168
    ∧ getRetentionDuration 0 0 = 168 :=
  ⟨retention_age_policy.2.2 0 0 [⟨"f.mp4", "cam", 5, 10⟩] ⟨"f.mp4", "cam", 5, 10⟩
      (by decide),
   (retention_age_policy.1 12 7).1 (by decide),
   (retention_age_policy.1 0 7).2.1 rfl (by decide),
   (retention_age_policy.1 0 0).2.2 rfl rfl⟩

/-- The size-limit deletion loop removes a minimal prefix: it returns
`l.take k` for some `k` with the remaining total at or under the cap, and
every strictly shorter prefix still leaves the total over the cap. -/
theorem dropOldest_spec (maxB : Nat) :
    ∀ l : List RecFile, ∃ k,
      dropOldest l (sumSizes l) maxB = l.take k
      ∧ sumSizes l - sumSizes (l.take k) ≤ maxB
      ∧ ∀ j, j < k → maxB < sumSizes l - sumSizes (l.take j) := by
  intro l
  induction l with
  | nil => exact ⟨0, rfl, by simp [sumSizes], fun j hj => absurd hj (by omega)⟩
  | cons r rest ih =>
    by_cases hc : sumSizes (r :: rest) ≤ maxB
    · refine ⟨0, ?_, by simpa using hc, fun j hj => absurd hj (by omega)⟩
      simp [dropOldest, hc]
    · obtain ⟨k, hk, hle, hmin⟩ := ih
      refine ⟨k + 1, ?_, ?_, ?_⟩
      · have hrec : sumSizes (r :: rest) - r.size = sumSizes rest := by
          simp [sumSizes_cons]
        simp only [dropOldest, if_neg hc, hrec, hk, List.take_succ_cons]
      · simpa [sumSizes_cons, List.take_succ_cons, Nat.add_sub_add_left]
          using hle
      · intro j hj
        match j with
        | 0 => simpa [sumSizes_nil] using Nat.lt_of_not_le hc
        | j' + 1 =>
          have := hmin j' (by omega)
          simpa [sumSizes_cons, List.take_succ_cons, Nat.add_sub_add_left]
            using this

/-- C9: `enforceGlobalSizeLimitWithStats` deletes a prefix of the
recording-time-sorted file list (globally oldest first, ignoring stream
boundaries), exactly long enough to bring the total size to at or under
`MaxTotalSize` MB — every shorter prefix leaves it over the cap — and with
all deletions succeeding the surviving files' total size is at most the cap. -/
theorem global_size_cap (maxMB : Nat) (recs : List RecFile) :
    (∃ k, enforceGlobalDeletes maxMB recs = (sortByRecTime recs).take k)
    ∧ List.Pairwise byRecTime (enforceGlobalDeletes maxMB recs)
    ∧ sumSizes recs - sumSizes (enforceGlobalDeletes maxMB recs) ≤
        maxMB * 1024 * 1024
    ∧ (∀ j, j < (enforceGlobalDeletes maxMB recs).length →
        maxMB * 1024 * 1024 <
          sumSizes recs - sumSizes ((sortByRecTime recs).take j))
    ∧ ((recs.map (·.path)).Nodup →
        sumSizes (survivors recs (enforceGlobalDeletes maxMB recs)) ≤
          maxMB * 1024 * 1024) := by
  have hperm : (sortByRecTime recs).Perm recs :=
    List.perm_insertionSort byRecTime recs
  have hsum : sumSizes (sortByRecTime recs) = sumSizes recs := sumSizes_perm hperm
  by_cases hc : sumSizes recs ≤ maxMB * 1024 * 1024
  · have hnil : enforceGlobalDeletes maxMB recs = [] := by
      simp [enforceGlobalDeletes, hc]
    refine ⟨⟨0, by simp [hnil]⟩, by simp [hnil], by simpa [hnil, sumSizes_nil],
      ?_, ?_⟩
    · intro j hj
      rw [hnil] at hj
      exact absurd hj (by simp)
    · intro _
      have hsurv : survivors recs (enforceGlobalDeletes maxMB recs) = recs := by
        simp [survivors, hnil]
      simpa [hsurv] using hc
  · have henf : enforceGlobalDeletes maxMB recs =
        dropOldest (sortByRecTime recs) (sumSizes (sortByRecTime recs))
          (maxMB * 1024 * 1024) := by
      simp [enforceGlobalDeletes, hc, hsum]
    obtain ⟨k, hk, hle, hmin⟩ := dropOldest_spec (maxMB * 1024 * 1024)
      (sortByRecTime recs)
    rw [hk] at henf
    refine ⟨⟨k, henf⟩, ?_, ?_, ?_, ?_⟩
    · rw [henf]
      exact (List.sorted_insertionSort byRecTime recs).sublist
        (List.take_sublist _ _)
    · rw [henf, ← hsum]
      exact hle
    · intro j hj
      rw [henf, List.length_take] at hj
      rw [← hsum]
      exact hmin j (by omega)
    · intro hnd
      set del := (sortByRecTime recs).take k with hdel
      have hnds : ((sortByRecTime recs).map (·.path)).Nodup :=
        ((hperm.map (·.path)).nodup_iff).mpr hnd
      have hsplit : sortByRecTime recs = del ++ (sortByRecTime recs).drop k :=
        (List.take_append_drop k _).symm
      have hdisj : ∀ x ∈ (sortByRecTime recs).drop k, ∀ d ∈ del,
          d.path ≠ x.path := by
        intro x hx d hd
        have : (del.map (·.path) ++ ((sortByRecTime recs).drop k).map
            (·.path)).Nodup := by
          rw [← List.map_append, ← hsplit]
          exact hnds
        have hdis := (List.nodup_append.mp this).2.2
        exact fun he => hdis (List.mem_map_of_mem _ hd)
          (he ▸ List.mem_map_of_mem _ hx)
      have hfilt : survivors (sortByRecTime recs)
          (enforceGlobalDeletes maxMB recs) = (sortByRecTime recs).drop k := by
        rw [henf, survivors]
        nth_rewrite 1 [hsplit]
        rw [List.filter_append]
        have h1 : del.filter
            (fun x => !(del.any (fun d => d.path == x.path))) = [] := by
          rw [List.filter_eq_nil_iff]
          intro x hx
          simp only [Bool.not_eq_true', Bool.not_eq_false]
          exact List.any_eq_true.mpr ⟨x, hx, by simp⟩
        have h2 : ((sortByRecTime recs).drop k).filter
            (fun x => !(del.any (fun d => d.path == x.path))) =
            (sortByRecTime recs).drop k := by
          rw [List.filter_eq_self]
          intro x hx
          simp only [Bool.not_eq_true', List.any_eq_false]
          intro d hd
          simpa using hdisj x hx d hd
        rw [h1, h2, List.nil_append]
      have hpsurv : (survivors recs (enforceGlobalDeletes maxMB recs)).Perm
          (survivors (sortByRecTime recs) (enforceGlobalDeletes maxMB recs)) :=
        (hperm.filter _).symm
      rw [sumSizes_perm hpsurv, hfilt]
      have hparts : sumSizes del +
          sumSizes ((sortByRecTime recs).drop k) = sumSizes recs := by
        rw [← sumSizes_append, ← hsplit, hsum]
      omega

/-- C9 witness: a concrete two-file overflow — cap 0 MB, distinct paths —
leaves survivors within the cap. -/
theorem global_size_cap_witness :
    sumSizes (survivors [⟨"a.mp4", "cam", 1, 5⟩, ⟨"b.mp4", "cam", 2, 7⟩]
      (enforceGlobalDeletes 0
        [⟨"a.mp4", "cam", 1, 5⟩, ⟨"b.mp4", "cam", 2, 7⟩])) ≤ 0 * 1024 * 1024 :=
  (global_size_cap 0 [⟨"a.mp4", "cam", 1, 5⟩, ⟨"b.mp4", "cam", 2, 7⟩]).2.2.2.2
    (by decide)

end Go2File
